import Mathlib

/-!
# VerusDB: shallow embedding and verification of the spec's claims

This file embeds the core of the VerusDB JavaScript engine
(`src/engine/VerusDB.js`, `src/schema/Schema.js`, the storage codec
`VDBStorage` and the encryption module `VerusEncryption`) as executable
Lean definitions, and settles the frozen claims about the specification
against them.

Modelling conventions:
* JavaScript runtime values are the inductive `JSVal`.  Numbers are
  modelled as integers (`Int`), which covers every value appearing in
  the claims; `JSVal.nan` models the distinguished `NaN` value produced
  by failed numeric coercions.  `Date` objects carry their millisecond
  timestamp.  `Buffer` values do not occur in any claim and are not
  modelled.
* JS objects and `Map`s are association lists in insertion order, which
  is the enumeration order of `Object.entries` and `Map` iteration.
* Strict equality `===` on objects, arrays and dates is reference
  equality; in every code path reached by the claims the two compared
  references are distinct allocations (a query literal versus a stored
  document value), so the embedding returns `false` there.
* External primitives that the engine calls but does not implement
  (regular-expression matching, `Date.parse`, AES, gzip, base64, JSON
  and SHA-256) are parameters of the embedding; theorems that need
  their specifications take them as hypotheses (e.g. decryption
  inverts encryption).
* Asynchrony is irrelevant: the engine awaits every internal call, so
  each public operation is a sequential state transformer.  Exceptions
  are `Except String`; because the source mutates state in place,
  operations return the state component alongside the result so that
  mutations made before a `throw` are kept, exactly as in the source.
-/

/-- JavaScript runtime values, restricted to what the engine manipulates. -/
inductive JSVal where
  | undef
  | null
  | nan
  | bool (b : Bool)
  | num (n : Int)
  | str (s : String)
  | date (ms : Int)
  | obj (fields : List (String × JSVal))
  | arr (elems : List JSVal)

/-- JS truthiness (`if (x)`): `undefined`, `null`, `NaN`, `false`, `0` and
`""` are falsy; every object, array and date is truthy. -/
def truthy : JSVal → Bool
  | .undef => false
  | .null => false
  | .nan => false
  | .bool b => b
  | .num n => n != 0
  | .str s => !s.isEmpty
  | .date _ => true
  | .obj _ => true
  | .arr _ => true

def isUndef : JSVal → Bool
  | .undef => true
  | _ => false

def decDigit (c : Char) : Option Nat :=
  if '0' ≤ c ∧ c ≤ '9' then some (c.toNat - 48) else none

def decimalValue : List Char → Nat → Option Nat
  | [], acc => some acc
  | c :: cs, acc =>
    match decDigit c with
    | some d => decimalValue cs (acc * 10 + d)
    | none => none

/-- `ToNumber` on a string: the empty string is `0`, an unsigned decimal
numeral is its value, anything else is `NaN` (`none`).  (JS also accepts
signs, fractions and exponents; no claim exercises those shapes.) -/
def strToNumber (s : String) : Option Int :=
  match s.data with
  | [] => some 0
  | cs => (decimalValue cs 0).map fun n => (n : Int)

/-- `ToNumber` with a number hint, `none` meaning `NaN`.  Objects and
arrays would go through `ToPrimitive`; the claims only compare primitive
values, so they are mapped to `NaN` here. -/
def toNumber : JSVal → Option Int
  | .undef => none
  | .null => some 0
  | .nan => none
  | .bool b => some (if b then 1 else 0)
  | .num n => some n
  | .str s => strToNumber s
  | .date ms => some ms
  | .obj _ => none
  | .arr _ => none

mutual

/-- `ToString`.  Date rendering keeps the timestamp; the engine never
branches on the exact human-readable date text.  Arrays render as
`Array.prototype.join(',')`, where `undefined` and `null` elements
become empty strings. -/
def jsToString : JSVal → String
  | .undef => "undefined"
  | .null => "null"
  | .nan => "NaN"
  | .bool true => "true"
  | .bool false => "false"
  | .num n => toString n
  | .str s => s
  | .date ms => "Date(" ++ toString ms ++ ")"
  | .obj _ => "[object Object]"
  | .arr es => jsArrToString es

def jsArrToString : List JSVal → String
  | [] => ""
  | [v] => (match v with | .undef => "" | .null => "" | w => jsToString w)
  | v :: rest =>
    (match v with | .undef => "" | .null => "" | w => jsToString w)
      ++ "," ++ jsArrToString rest

end

/-- The ECMAScript abstract relational comparison `x < y`:
both strings compare lexicographically, otherwise both coerce to
numbers; `none` is the *undefined* result (a `NaN` was involved). -/
def arc (x y : JSVal) : Option Bool :=
  match x, y with
  | .str a, .str b => some (decide (a < b))
  | _, _ =>
    match toNumber x, toNumber y with
    | some a, some b => some (decide (a < b))
    | _, _ => none

/-- JS `x < y`: an undefined comparison result yields `false`. -/
def jsLt (x y : JSVal) : Bool := (arc x y).getD false

/-- JS `x > y`. -/
def jsGt (x y : JSVal) : Bool := (arc y x).getD false

/-- JS `x <= y`: `false` when `y < x` is true *or* undefined. -/
def jsLe (x y : JSVal) : Bool :=
  match arc y x with
  | some true => false
  | none => false
  | some false => true

/-- JS `x >= y`. -/
def jsGe (x y : JSVal) : Bool :=
  match arc x y with
  | some true => false
  | none => false
  | some false => true

/-- JS strict equality `===` on the modelled values.  `NaN !== NaN`;
objects, arrays and dates compare by reference, and the compared
references are distinct allocations on every path the claims visit. -/
def jsStrictEq : JSVal → JSVal → Bool
  | .undef, .undef => true
  | .null, .null => true
  | .bool a, .bool b => a == b
  | .num a, .num b => a == b
  | .str a, .str b => a == b
  | _, _ => false

/-- `ToPrimitive` with default hint: objects, arrays and dates become
strings, primitives are unchanged. -/
def toPrimitiveDefault : JSVal → JSVal
  | .obj _ => .str "[object Object]"
  | .arr es => .str (jsToString (.arr es))
  | .date ms => .str (jsToString (.date ms))
  | v => v

/-- JS `x + y`: string concatenation when either primitive is a string,
numeric addition otherwise (`NaN` propagates). -/
def jsAdd (x y : JSVal) : JSVal :=
  match toPrimitiveDefault x, toPrimitiveDefault y with
  | .str a, b => .str (a ++ jsToString b)
  | a, .str b => .str (jsToString a ++ b)
  | a, b =>
    match toNumber a, toNumber b with
    | some m, some n => .num (m + n)
    | _, _ => .nan

/-! ## JS object and `Map` helpers (association lists in insertion order) -/

/-- Property read `o[k]`: `undefined` if absent. -/
def objGet (fields : List (String × JSVal)) (k : String) : JSVal :=
  match fields with
  | [] => .undef
  | (k', v) :: rest => if k' = k then v else objGet rest k

/-- Property write `o[k] = v`: overwrite in place, else append (JS keeps
the original insertion position of an existing key). -/
def objSet (fields : List (String × JSVal)) (k : String) (v : JSVal) :
    List (String × JSVal) :=
  match fields with
  | [] => [(k, v)]
  | (k', v') :: rest =>
    if k' = k then (k', v) :: rest else (k', v') :: objSet rest k v

/-- `delete o[k]`. -/
def objDelete (fields : List (String × JSVal)) (k : String) :
    List (String × JSVal) :=
  match fields with
  | [] => []
  | (k', v') :: rest =>
    if k' = k then rest else (k', v') :: objDelete rest k

/-- `String.prototype.split('.')` on the character list. -/
def splitDotAux : List Char → List Char → List (List Char)
  | [], acc => [acc.reverse]
  | c :: cs, acc =>
    if c = '.' then acc.reverse :: splitDotAux cs []
    else splitDotAux cs (c :: acc)

/-- `field.split('.')`. -/
def splitOnDot (s : String) : List String :=
  (splitDotAux s.data []).map fun cs => ⟨cs⟩

/-- `parts.join('.')`. -/
def joinDot : List String → String
  | [] => ""
  | [s] => s
  | s :: rest => s ++ "." ++ joinDot rest

/-- `a.startsWith(b)` on character lists. -/
def charsLead : List Char → List Char → Bool
  | [], _ => true
  | _, [] => false
  | a :: as, b :: bs => a == b && charsLead as bs

/-- `s.startsWith(lead)`. -/
def strLeads (lead s : String) : Bool := charsLead lead.data s.data

/-- `VerusDB.getFieldValue`: walk a dotted path through nested
structures; any falsy or non-object intermediate yields `undefined`.
Array steps resolve decimal indices (other array properties such as
`length` are not modelled; no claim reads them). -/
def getFieldValuePath : JSVal → List String → JSVal
  | v, [] => v
  | .obj fields, p :: rest => getFieldValuePath (objGet fields p) rest
  | .arr es, p :: rest =>
    (match p.toNat? with
     | some i => getFieldValuePath ((es.drop i).headD .undef) rest
     | none => getFieldValuePath .undef rest)
  | _, _ :: _ => .undef

def getFieldValue (document : JSVal) (field : String) : JSVal :=
  getFieldValuePath document (splitOnDot field)

/-! ## External primitives used by the engine

`regexTest pattern subject` models `new RegExp(pattern).test(subject)`,
`dateParse` models `Date.parse` (`none` = `NaN`), and the two field
functions model `encryption.encryptField/decryptField` applied with the
database key (the byte-level definition of those appears with claim C6;
the engine only composes them). -/
structure EngineCtx where
  regexTest : String → String → Bool
  dateParse : String → Option Int
  encryptFieldF : JSVal → JSVal
  decryptFieldF : JSVal → JSVal

/-! ## Query evaluator (`VerusDB.matchesOperator` / `matchesQuery`) -/

/-- `VerusDB.matchesOperator`: iterate the operator object's entries in
insertion order; each recognised operator can veto the match, an
unrecognised key throws `Unsupported operator`. -/
def matchesOperatorList (ctx : EngineCtx) (value : JSVal) :
    List (String × JSVal) → Except String Bool
  | [] => .ok true
  | (op, opValue) :: rest =>
    match op with
    | "$eq" =>
      if !(jsStrictEq value opValue) then .ok false
      else matchesOperatorList ctx value rest
    | "$ne" =>
      if jsStrictEq value opValue then .ok false
      else matchesOperatorList ctx value rest
    | "$gt" =>
      if jsLe value opValue then .ok false
      else matchesOperatorList ctx value rest
    | "$gte" =>
      if jsLt value opValue then .ok false
      else matchesOperatorList ctx value rest
    | "$lt" =>
      if jsGe value opValue then .ok false
      else matchesOperatorList ctx value rest
    | "$lte" =>
      if jsGt value opValue then .ok false
      else matchesOperatorList ctx value rest
    | "$in" =>
      match opValue with
      | .arr es =>
        if !(es.any fun e => jsStrictEq e value) then .ok false
        else matchesOperatorList ctx value rest
      | _ => .ok false
    | "$nin" =>
      match opValue with
      | .arr es =>
        if es.any fun e => jsStrictEq e value then .ok false
        else matchesOperatorList ctx value rest
      | _ => .ok false
    | "$regex" =>
      if !(ctx.regexTest (jsToString opValue) (jsToString value)) then .ok false
      else matchesOperatorList ctx value rest
    | _ => .error ("Unsupported operator: " ++ op)

/-- `Object.entries` of a JS value, for the operator-object branch of
`matchesQuery` (`typeof value === 'object' && value !== null`): plain
objects enumerate their fields, arrays enumerate index/element pairs,
dates have no own enumerable properties. -/
def jsObjectEntries : JSVal → List (String × JSVal)
  | .obj fields => fields
  | .arr es => (es.enum).map fun p => (toString p.1, p.2)
  | _ => []

/-- `VerusDB.matchesQuery`: each query entry either dispatches to the
operator matcher (when the query value is a non-null object, including
arrays and dates) or compares with strict equality. -/
def matchesQuery (ctx : EngineCtx) (document : JSVal) :
    List (String × JSVal) → Except String Bool
  | [] => .ok true
  | (field, value) :: rest =>
    let docValue := getFieldValue document field
    match value with
    | .obj ops =>
      (match matchesOperatorList ctx docValue ops with
       | .error e => .error e
       | .ok false => .ok false
       | .ok true => matchesQuery ctx document rest)
    | .arr es =>
      (match matchesOperatorList ctx docValue (jsObjectEntries (.arr es)) with
       | .error e => .error e
       | .ok false => .ok false
       | .ok true => matchesQuery ctx document rest)
    | .date ms =>
      (match matchesOperatorList ctx docValue (jsObjectEntries (.date ms)) with
       | .error e => .error e
       | .ok false => .ok false
       | .ok true => matchesQuery ctx document rest)
    | other =>
      if !(jsStrictEq docValue other) then .ok false
      else matchesQuery ctx document rest

/-! ## Sorting (`VerusDB.sortDocuments`) -/

/-- The comparator passed to `Array.prototype.sort`: first differing
`(field, direction)` pair decides; `<` and `>` are the JS relational
operators, so a pair whose comparison is undefined (e.g. one side is
`undefined`) contributes `0` and falls through to the next key. -/
def compareBySort (sort : List (String × Int)) (a b : JSVal) : Int :=
  match sort with
  | [] => 0
  | (field, direction) :: rest =>
    let aValue := getFieldValue a field
    let bValue := getFieldValue b field
    let comparison : Int :=
      if jsLt aValue bValue then -1 else if jsGt aValue bValue then 1 else 0
    let comparison := if direction = -1 then -comparison else comparison
    if comparison ≠ 0 then comparison else compareBySort rest a b

/-- Stable insertion used to model `Array.prototype.sort` (stable per
ES2019): an element is placed after every element it does not strictly
precede, so equal elements keep their original relative order. -/
def insertSorted (cmp : JSVal → JSVal → Int) (x : JSVal) :
    List JSVal → List JSVal
  | [] => [x]
  | y :: ys => if cmp x y < 0 then x :: y :: ys else y :: insertSorted cmp x ys

/-- `VerusDB.sortDocuments`: stable sort by the chained comparator.  For
a consistent comparator this is the unique stable-sort result; the
claims below only evaluate it on inputs where stability pins the
answer for every conforming implementation. -/
def sortDocuments (sort : List (String × Int)) (documents : List JSVal) :
    List JSVal :=
  documents.foldl (fun acc d => insertSorted (compareBySort sort) d acc) []

/-! ## Schema system (`Schema.js`) -/

/-- A schema `default`: either a literal value or a zero-argument
generator function (the source distinguishes them with `typeof`). -/
inductive SchemaDefault where
  | lit (v : JSVal)
  | gen (f : Unit → JSVal)

/-- A validated field definition as produced by
`VerusSchema.validateFieldDefinition`.  `validate` is the optional
custom predicate (a JS function returning `true` or a reason). -/
structure FieldDef where
  type : String
  required : Bool := false
  encrypted : Bool := false
  unique : Bool := false
  index : Bool := false
  dfault : Option SchemaDefault := none
  validate : Option (JSVal → JSVal) := none
  min : Option Int := none
  max : Option Int := none
  minLength : Option Nat := none
  maxLength : Option Nat := none
  enum : Option (List JSVal) := none

/-- A collection schema: field name to definition, insertion-ordered
(JS object keys are unique, so well-formed schemas have no duplicate
names). -/
abbrev Schema := List (String × FieldDef)

def schemaLookup (schema : Schema) (name : String) : Option FieldDef :=
  match schema with
  | [] => none
  | (n, fd) :: rest => if n = name then some fd else schemaLookup rest name

/-- `VerusSchema.isValidType`.  `typeof` makes a `Date` pass the
`object` case; a string passes `date` when `Date.parse` succeeds.
`buffer` values are not modelled (no claim stores buffers). -/
def isValidType (ctx : EngineCtx) (value : JSVal) (type : String) : Bool :=
  match type with
  | "string" => (match value with | .str _ => true | _ => false)
  | "number" => (match value with | .num _ => true | _ => false)
  | "boolean" => (match value with | .bool _ => true | _ => false)
  | "date" =>
    (match value with
     | .date _ => true
     | .str s => (ctx.dateParse s).isSome
     | _ => false)
  | "object" => (match value with | .obj _ => true | .date _ => true | _ => false)
  | "array" => (match value with | .arr _ => true | _ => false)
  | _ => false

/-- `VerusSchema.validateFieldValue`.  Error texts keep the leading
words of the source messages (interpolated tails elided). -/
def validateFieldValue (ctx : EngineCtx) (fieldName : String) (value : JSVal)
    (fd : FieldDef) : Except String Unit := do
  if !(isValidType ctx value fd.type) then
    throw ("Field " ++ fieldName ++ " must be of type " ++ fd.type)
  match fd.enum with
  | some es =>
    if !(es.any fun e => jsStrictEq e value) then
      throw ("Field " ++ fieldName ++ " must be one of the enum values")
  | none => pure ()
  if fd.type = "number" then
    match value with
    | .num n => do
      match fd.min with
      | some m => if n < m then throw ("Field " ++ fieldName ++ " must be >= " ++ toString m)
      | none => pure ()
      match fd.max with
      | some m => if n > m then throw ("Field " ++ fieldName ++ " must be <= " ++ toString m)
      | none => pure ()
    | _ => pure ()
  if fd.type = "string" ∨ fd.type = "array" then do
    let length : Nat :=
      match value with
      | .str s => s.length
      | .arr es => es.length
      | _ => 0
    match fd.minLength with
    | some m => if length < m then throw ("Field " ++ fieldName ++ " must have length >= " ++ toString m)
    | none => pure ()
    match fd.maxLength with
    | some m => if length > m then throw ("Field " ++ fieldName ++ " must have length <= " ++ toString m)
    | none => pure ()
  match fd.validate with
  | some f =>
    if !(jsStrictEq (f value) (.bool true)) then
      throw ("Field " ++ fieldName ++ " validation failed")
  | none => pure ()

/-- `VerusSchema.validateDocument`.  `newId` models `generateId()` and
`now` models `new Date()` at validation time.  Phases exactly as in the
source: schema pass (defaults, required, per-field validation), unknown
field rejection, system-field carry-over, `_id`/timestamp
materialisation (note the *falsy* checks on `_id` and `createdAt`). -/
def validateDocumentE (ctx : EngineCtx) (document : JSVal) (schema : Schema)
    (newId : String) (now : Int) : Except String JSVal := do
  match document with
  | .obj docFields => do
    let validated ← schema.foldlM
      (fun acc (entry : String × FieldDef) => do
        let name := entry.1
        let fd := entry.2
        let value := objGet docFields name
        let value ←
          if isUndef value then
            match fd.dfault with
            | some (.lit d) => pure d
            | some (.gen g) => pure (g ())
            | none =>
              if fd.required then
                throw ("Required field " ++ name ++ " is missing")
              else pure JSVal.undef
          else pure value
        if isUndef value then
          pure acc
        else do
          validateFieldValue ctx name value fd
          pure (objSet acc name value))
      ([] : List (String × JSVal))
    let systemFields := ["_id", "createdAt", "updatedAt"]
    for entry in docFields do
      if (schemaLookup schema entry.1).isNone ∧ !(systemFields.contains entry.1) then
        throw ("Field " ++ entry.1 ++ " is not defined in schema")
    let validated := systemFields.foldl
      (fun acc name =>
        if !(isUndef (objGet docFields name)) then
          objSet acc name (objGet docFields name)
        else acc)
      validated
    let validated :=
      if !(truthy (objGet validated "_id")) then
        objSet validated "_id" (.str newId)
      else validated
    let validated :=
      if !(truthy (objGet validated "createdAt")) then
        objSet validated "createdAt" (.date now)
      else validated
    pure (.obj (objSet validated "updatedAt" (.date now)))
  | _ => throw "Document must be an object"

/-! ## Document storage processing and find (`VerusDB`) -/

/-- One schema entry of `processDocumentForStorage`'s loop:
`if (fieldDef.encrypted && processed[fieldName] !== undefined)` encrypt
that field in place. -/
def encryptStep (ctx : EngineCtx) (acc : List (String × JSVal))
    (entry : String × FieldDef) : List (String × JSVal) :=
  if entry.2.encrypted ∧ !(isUndef (objGet acc entry.1)) then
    objSet acc entry.1 (ctx.encryptFieldF (objGet acc entry.1))
  else acc

/-- One schema entry of `processDocumentFromStorage`'s loop. -/
def decryptStep (ctx : EngineCtx) (acc : List (String × JSVal))
    (entry : String × FieldDef) : List (String × JSVal) :=
  if entry.2.encrypted ∧ !(isUndef (objGet acc entry.1)) then
    objSet acc entry.1 (ctx.decryptFieldF (objGet acc entry.1))
  else acc

/-- `VerusDB.processDocumentForStorage`: encrypt every schema field
flagged `encrypted` that is present on the (shallow-copied) document. -/
def processDocumentForStorage (ctx : EngineCtx) (document : JSVal)
    (schema : Schema) : JSVal :=
  match document with
  | .obj fields => .obj (schema.foldl (encryptStep ctx) fields)
  | v => v

/-- `VerusDB.processDocumentFromStorage`: decrypt those same fields. -/
def processDocumentFromStorage (ctx : EngineCtx) (document : JSVal)
    (schema : Schema) : JSVal :=
  match document with
  | .obj fields => .obj (schema.foldl (decryptStep ctx) fields)
  | v => v

/-- `VerusDB.filterDocuments`: keep the *stored* form of every document
whose decrypted form matches the query. -/
def filterDocuments (ctx : EngineCtx) (documents : List JSVal)
    (query : List (String × JSVal)) (schema : Schema) :
    Except String (List JSVal) := do
  let mut filtered : List JSVal := []
  for doc in documents do
    let processed := processDocumentFromStorage ctx doc schema
    if (← matchesQuery ctx processed query) then
      filtered := filtered ++ [doc]
  pure filtered

/-- In-memory collection state: schema plus the documents `Map`
(insertion-ordered, keyed by the `_id` value; JS `Map` keys admit any
value and compare with SameValueZero, which agrees with `===` on the
primitives used as ids). -/
structure Collection where
  schema : Schema
  documents : List (JSVal × JSVal)

def mapHasKey (m : List (JSVal × JSVal)) (k : JSVal) : Bool :=
  m.any fun e => jsStrictEq e.1 k

def mapSet (m : List (JSVal × JSVal)) (k v : JSVal) : List (JSVal × JSVal) :=
  match m with
  | [] => [(k, v)]
  | (k', v') :: rest =>
    if jsStrictEq k' k then (k', v) :: rest else (k', v') :: mapSet rest k v

def mapDelete (m : List (JSVal × JSVal)) (k : JSVal) : List (JSVal × JSVal) :=
  match m with
  | [] => []
  | (k', v') :: rest =>
    if jsStrictEq k' k then rest else (k', v') :: mapDelete rest k

/-- `find` options; `skip`/`limit` are only applied when truthy, so the
JS `undefined` and `0` collapse to `0` here. -/
structure FindOptions where
  sort : Option (List (String × Int)) := none
  skip : Nat := 0
  limit : Nat := 0

/-- `VerusDB.find` (the in-memory part; `init()`/persistence do not
touch the result): scan, filter when the query is non-empty, sort,
skip/limit, then return the decrypted documents. -/
def findDocs (ctx : EngineCtx) (col : Collection)
    (query : List (String × JSVal)) (options : FindOptions) :
    Except String (List JSVal) := do
  let documents := col.documents.map Prod.snd
  let documents ←
    if query.length > 0 then
      filterDocuments ctx documents query col.schema
    else pure documents
  let documents :=
    match options.sort with
    | some s => sortDocuments s documents
    | none => documents
  let documents := if options.skip ≠ 0 then documents.drop options.skip else documents
  let documents := if options.limit ≠ 0 then documents.take options.limit else documents
  pure (documents.map fun doc => processDocumentFromStorage ctx doc col.schema)

/-- `VerusDB.findOne`: first result of `find(query, {limit: 1})`, or
`null`. -/
def findOne (ctx : EngineCtx) (col : Collection)
    (query : List (String × JSVal)) : Except String JSVal := do
  let results ← findDocs ctx col query { limit := 1 }
  match results with
  | [] => pure .null
  | d :: _ => pure d

/-- `VerusDB.checkUniqueConstraints`: for every `unique` schema field
present on the candidate document, look up an existing document with
the same (stored-form) value and reject unless it is the candidate
itself. -/
def checkUniqueConstraints (ctx : EngineCtx) (col : Collection)
    (document : JSVal) : Except String Unit := do
  let docFields := jsObjectEntries document
  for entry in col.schema do
    if entry.2.unique ∧ !(isUndef (objGet docFields entry.1)) then
      let existing ← findOne ctx col [(entry.1, objGet docFields entry.1)]
      if truthy existing ∧
          !(jsStrictEq (getFieldValue existing "_id")
            (getFieldValue document "_id")) then
        throw ("Duplicate value for unique field " ++ entry.1)

/-! ## Secondary indexes (`VerusDB.addToIndex` and friends) -/

/-- An in-memory index: `data` maps the stringified field value to the
`Set` of document ids (both in insertion order). -/
structure Index where
  field : String
  unique : Bool
  sparse : Bool
  data : List (String × List JSVal)

/-- The reserved key strings used by `addToIndex`/`removeFromIndex`. -/
def indexKeyOf (value : JSVal) : String :=
  match value with
  | .null => "__null__"
  | .undef => "__undefined__"
  | v => jsToString v

def assocHas {α : Type} (m : List (String × α)) (k : String) : Bool :=
  m.any fun e => e.1 = k

def assocGetD {α : Type} (m : List (String × α)) (k : String) (d : α) : α :=
  match m with
  | [] => d
  | (k', v) :: rest => if k' = k then v else assocGetD rest k d

def assocSet {α : Type} (m : List (String × α)) (k : String) (v : α) :
    List (String × α) :=
  match m with
  | [] => [(k, v)]
  | (k', v') :: rest =>
    if k' = k then (k', v) :: rest else (k', v') :: assocSet rest k v

def assocDrop {α : Type} (m : List (String × α)) (k : String) :
    List (String × α) :=
  match m with
  | [] => []
  | (k', v') :: rest =>
    if k' = k then rest else (k', v') :: assocDrop rest k

/-- `Set.prototype.add` (SameValueZero, which agrees with `===` on the
primitive ids the engine stores). -/
def setAdd (s : List JSVal) (v : JSVal) : List JSVal :=
  if s.any fun e => jsStrictEq e v then s else s ++ [v]

/-- `Set.prototype.delete`. -/
def setDrop (s : List JSVal) (v : JSVal) : List JSVal :=
  s.filter fun e => !(jsStrictEq e v)

/-- `VerusDB.addToIndex`: ensure the key's id-set exists, reject a
second id under a `unique` index, otherwise add the id.  The thrown
error leaves the index unchanged (the empty-set insertion only happens
when the key was absent, in which case the size test cannot fire). -/
def addToIndex (index : Index) (value docId : JSVal) : Except String Index :=
  let key := indexKeyOf value
  let data := if assocHas index.data key then index.data
              else index.data ++ [(key, [])]
  if index.unique ∧ (assocGetD data key []).length > 0 then
    .error ("Duplicate value for unique index: " ++ jsToString value)
  else
    .ok { index with data := assocSet data key (setAdd (assocGetD data key []) docId) }

/-- `VerusDB.removeFromIndex`: drop the id and discard the key when its
set becomes empty. -/
def removeFromIndex (index : Index) (value docId : JSVal) : Index :=
  let key := indexKeyOf value
  if assocHas index.data key then
    let s := setDrop (assocGetD index.data key []) docId
    if s.length = 0 then { index with data := assocDrop index.data key }
    else { index with data := assocSet index.data key s }
  else index

/-- `indexKey.split('.').slice(1).join('.')`. -/
def indexFieldOf (indexKey : String) : String :=
  joinDot (splitOnDot indexKey).tail

/-- `VerusDB.updateIndexesOnInsert`: walk the engine's index map; each
index keyed under `name.` receives the new document's value.  The walk
mutates as it goes, so when `addToIndex` throws, earlier indexes keep
their new entries and later ones are untouched. -/
def updateIndexesOnInsert (name : String) (document : JSVal) :
    List (String × Index) → Except String Unit × List (String × Index)
  | [] => (.ok (), [])
  | (key, index) :: rest =>
    if strLeads (name ++ ".") key then
      let field := indexFieldOf key
      let value := getFieldValue document field
      if !(isUndef value) ∨ !index.sparse then
        match addToIndex index value (getFieldValue document "_id") with
        | .error e => (.error e, (key, index) :: rest)
        | .ok index' =>
          let (r, rest') := updateIndexesOnInsert name document rest
          (r, (key, index') :: rest')
      else
        let (r, rest') := updateIndexesOnInsert name document rest
        (r, (key, index) :: rest')
    else
      let (r, rest') := updateIndexesOnInsert name document rest
      (r, (key, index) :: rest')

/-- `VerusDB.updateIndexesOnUpdate`: when the indexed value changed
(`!==`), remove the old entry, then add the new one (unless the index
is sparse and the new value is undefined).  A throw from the unique
check happens after the removal. -/
def updateIndexesOnUpdate (name : String) (oldDoc newDoc : JSVal) :
    List (String × Index) → Except String Unit × List (String × Index)
  | [] => (.ok (), [])
  | (key, index) :: rest =>
    if strLeads (name ++ ".") key then
      let field := indexFieldOf key
      let oldValue := getFieldValue oldDoc field
      let newValue := getFieldValue newDoc field
      if !(jsStrictEq oldValue newValue) then
        let index1 := removeFromIndex index oldValue (getFieldValue oldDoc "_id")
        if !(isUndef newValue) ∨ !index1.sparse then
          match addToIndex index1 newValue (getFieldValue newDoc "_id") with
          | .error e => (.error e, (key, index1) :: rest)
          | .ok index2 =>
            let (r, rest') := updateIndexesOnUpdate name oldDoc newDoc rest
            (r, (key, index2) :: rest')
        else
          let (r, rest') := updateIndexesOnUpdate name oldDoc newDoc rest
          (r, (key, index1) :: rest')
      else
        let (r, rest') := updateIndexesOnUpdate name oldDoc newDoc rest
        (r, (key, index) :: rest')
    else
      let (r, rest') := updateIndexesOnUpdate name oldDoc newDoc rest
      (r, (key, index) :: rest')

/-! ## Engine insert / update (`VerusDB.insert`, `VerusDB.update`) -/

/-- The per-collection slice of engine state that `insert`/`update`
read and mutate: the named collection and the engine's in-memory index
map.  (`saveCollection` then copies this state into the storage maps
and to disk; persistence is modelled with claims C1 and C7 and cannot
alter these in-memory structures.) -/
structure ColState where
  name : String
  collection : Collection
  indexes : List (String × Index)

/-- `VerusDB.insert`.  `newId`/`now` stand for `generateId()` and
`new Date()`.  Because the source mutates in place, the final state is
returned even when an exception propagates: a throw from
`updateIndexesOnInsert` happens *after* `documents.set`. -/
def insertOp (ctx : EngineCtx) (st : ColState) (document : JSVal)
    (newId : String) (now : Int) : Except String JSVal × ColState :=
  match validateDocumentE ctx document st.collection.schema newId now with
  | .error e => (.error e, st)
  | .ok validatedDoc =>
    let processedDoc := processDocumentForStorage ctx validatedDoc st.collection.schema
    match checkUniqueConstraints ctx st.collection processedDoc with
    | .error e => (.error e, st)
    | .ok () =>
      let docs := mapSet st.collection.documents (getFieldValue processedDoc "_id") processedDoc
      let st := { st with collection := { st.collection with documents := docs } }
      let (r, indexes) := updateIndexesOnInsert st.name processedDoc st.indexes
      let st := { st with indexes := indexes }
      match r with
      | .error e => (.error e, st)
      | .ok () =>
        (.ok (processDocumentFromStorage ctx processedDoc st.collection.schema), st)

/-- The operator loop of `VerusDB.applyUpdate` (an update is a JS
object mapping operator name to a field/argument object). -/
def applyUpdateOps (updated : List (String × JSVal)) :
    List (String × List (String × JSVal)) →
    Except String (List (String × JSVal))
  | [] => .ok updated
  | (operator, operations) :: rest =>
    match operator with
    | "$set" =>
      applyUpdateOps (operations.foldl (fun acc e => objSet acc e.1 e.2) updated) rest
    | "$unset" =>
      applyUpdateOps (operations.foldl (fun acc e => objDelete acc e.1) updated) rest
    | "$inc" =>
      applyUpdateOps (operations.foldl (fun acc e =>
        let cur := objGet acc e.1
        objSet acc e.1 (jsAdd (if truthy cur then cur else .num 0) e.2)) updated) rest
    | "$push" =>
      applyUpdateOps (operations.foldl (fun acc e =>
        match objGet acc e.1 with
        | .arr es => objSet acc e.1 (.arr (es ++ [e.2]))
        | _ => objSet acc e.1 (.arr [e.2])) updated) rest
    | "$pull" =>
      applyUpdateOps (operations.foldl (fun acc e =>
        match objGet acc e.1 with
        | .arr es => objSet acc e.1 (.arr (es.filter fun item => !(jsStrictEq item e.2)))
        | _ => acc) updated) rest
    | _ => .error ("Unsupported update operator: " ++ operator)

/-- `VerusDB.applyUpdate`: apply the operators to a copy, then stamp
`updatedAt`. -/
def applyUpdate (document : JSVal)
    (update : List (String × List (String × JSVal))) (now : Int) :
    Except String JSVal :=
  match applyUpdateOps (jsObjectEntries document) update with
  | .error e => .error e
  | .ok updated => .ok (.obj (objSet updated "updatedAt" (.date now)))

structure UpdateResult where
  matchedCount : Nat
  modifiedCount : Nat

/-- The body of `VerusDB.update`'s `for` loop, threading the mutated
state; a throw mid-loop keeps every mutation already made. -/
def updateLoop (ctx : EngineCtx) (multi : Bool) (newId : String) (now : Int)
    (update : List (String × List (String × JSVal))) (st : ColState) :
    List JSVal → Nat → Except String Unit × ColState × Nat
  | [], modified => (.ok (), st, modified)
  | doc :: rest, modified =>
    if !multi ∧ modified > 0 then (.ok (), st, modified)
    else
      let originalDoc := processDocumentFromStorage ctx doc st.collection.schema
      match applyUpdate originalDoc update now with
      | .error e => (.error e, st, modified)
      | .ok updatedDoc =>
        match validateDocumentE ctx updatedDoc st.collection.schema newId now with
        | .error e => (.error e, st, modified)
        | .ok validatedDoc =>
          let processedDoc := processDocumentForStorage ctx validatedDoc st.collection.schema
          let docs := mapSet st.collection.documents (getFieldValue doc "_id") processedDoc
          let st1 : ColState :=
            { st with collection := { st.collection with documents := docs } }
          let (r, indexes) := updateIndexesOnUpdate st1.name doc processedDoc st1.indexes
          let st2 : ColState := { st1 with indexes := indexes }
          match r with
          | .error e => (.error e, st2, modified)
          | .ok () => updateLoop ctx multi newId now update st2 rest (modified + 1)

/-- `VerusDB.update` (`options.multi !== false` is the `multi` flag). -/
def updateOp (ctx : EngineCtx) (st : ColState)
    (filter : List (String × JSVal))
    (update : List (String × List (String × JSVal)))
    (multi : Bool) (newId : String) (now : Int) :
    Except String UpdateResult × ColState :=
  match filterDocuments ctx (st.collection.documents.map Prod.snd) filter
      st.collection.schema with
  | .error e => (.error e, st)
  | .ok documentsToUpdate =>
    if documentsToUpdate.length = 0 then (.ok ⟨0, 0⟩, st)
    else
      match updateLoop ctx multi newId now update st documentsToUpdate 0 with
      | (.error e, st', _) => (.error e, st')
      | (.ok (), st', modified) => (.ok ⟨documentsToUpdate.length, modified⟩, st')

/-! ## Dropping a collection (`VerusDB.dropCollection` +
`VDBStorage.deleteCollection`) -/

/-- Whole-database state for the drop path: the engine's two in-memory
maps plus the storage mirror (`VDBStorage.collections` / `.indexes`,
whose values are opaque serialized JSON here) and the audit log
(modelled as `(operation, name-or-key)`; the timestamps recorded by
`logOperation` never influence control flow). -/
structure DbState where
  collections : List (String × Collection)
  engineIndexes : List (String × Index)
  storageCollections : List (String × JSVal)
  storageIndexes : List (String × JSVal)
  operationLog : List (String × String)

/-- `VDBStorage.logOperation`: append, then keep the last 1000. -/
def logOperation (log : List (String × String)) (op detail : String) :
    List (String × String) :=
  let log := log ++ [(op, detail)]
  if log.length > 1000 then log.drop (log.length - 1000) else log

/-- `VDBStorage.deleteCollection`: remove the storage collection entry
and every *storage* index whose key starts with `name.`, and log. -/
def storageDeleteCollection (s : DbState) (name : String) : DbState :=
  let s := { s with storageCollections := assocDrop s.storageCollections name }
  let s := { s with storageIndexes :=
    s.storageIndexes.filter fun e => !(strLeads (name ++ ".") e.1) }
  { s with operationLog := logOperation s.operationLog "deleteCollection" name }

/-- `VerusDB.dropCollection`: delete the engine collection, delegate to
storage, save.  The engine's own `indexes` map is never touched. -/
def dropCollection (s : DbState) (name : String) :
    Except String Unit × DbState :=
  if !(assocHas s.collections name) then
    (.error ("Collection " ++ name ++ " does not exist"), s)
  else
    let s := { s with collections := assocDrop s.collections name }
    let s := storageDeleteCollection s name
    (.ok (), s)

/-! ## Field-level encryption (`VerusEncryption.encryptField` /
`decryptField`)

Bytes are `List Nat`.  The external primitives (JSON, UTF-8, AES-256-CBC
with the database key, base64) are parameters: `aesEncrypt` returns the
`(ciphertext, iv)` pair produced with a fresh 16-byte iv (a fixed
function models one call), `aesDecrypt` is its partial inverse. -/
structure FieldCrypto where
  jsonStringify : JSVal → String
  jsonParse : String → Option JSVal
  utf8Encode : String → List Nat
  utf8Decode : List Nat → Option String
  aesEncrypt : List Nat → List Nat × List Nat
  aesDecrypt : List Nat → List Nat → Option (List Nat)
  b64encode : List Nat → String
  b64decode : String → List Nat

/-- `encryptField(value, key)`: JSON-serialize, UTF-8 encode, encrypt,
and base64 the concatenation `iv || ciphertext`. -/
def encryptField (fc : FieldCrypto) (value : JSVal) : String :=
  let stringValue := fc.jsonStringify value
  let buffer := fc.utf8Encode stringValue
  let encrypted := fc.aesEncrypt buffer
  fc.b64encode (encrypted.2 ++ encrypted.1)

/-- `decryptField(encryptedValue, key)`: base64 decode, split off the
leading 16-byte iv (`this.ivLength`), decrypt, UTF-8 decode, JSON-parse.
`none` models the thrown `Decryption failed`/parse errors. -/
def decryptField (fc : FieldCrypto) (encryptedValue : String) : Option JSVal := do
  let buffer := fc.b64decode encryptedValue
  let iv := buffer.take 16
  let encrypted := buffer.drop 16
  let decrypted ← fc.aesDecrypt encrypted iv
  let stringValue ← fc.utf8Decode decrypted
  fc.jsonParse stringValue

/-! ## File codec (`VDBStorage.buildFileBuffer` / `parseVDBFile`) -/

def byteAt (buf : List Nat) (i : Nat) : Nat := buf.getD i 0

/-- `buffer.writeUInt32LE`. -/
def u32le (n : Nat) : List Nat :=
  [n % 256, n / 256 % 256, n / 65536 % 256, n / 16777216 % 256]

/-- `buffer.readUInt32LE(off)`. -/
def readU32LE (buf : List Nat) (off : Nat) : Nat :=
  byteAt buf off + 256 * byteAt buf (off + 1) + 65536 * byteAt buf (off + 2)
    + 16777216 * byteAt buf (off + 3)

/-- `buffer.slice(start, stop)`. -/
def bufSlice (buf : List Nat) (start stop : Nat) : List Nat :=
  (buf.take stop).drop start

/-- The magic bytes `'VDB1'`. -/
def vdbMagic : List Nat := [86, 68, 66, 49]

/-- `VDBStorage.buildFileBuffer`: magic, version 1, salt length + salt,
checksum length (64) + the SHA-256 hex digest of the ciphertext as
UTF-8 text, payload length (`16 + encrypted.length`), iv, ciphertext.
`checksumOf` models `encryption.generateChecksum` (already as bytes of
the 64-character hex string). -/
def buildFileBuffer (checksumOf : List Nat → List Nat)
    (salt iv encrypted : List Nat) : List Nat :=
  vdbMagic ++ u32le 1 ++ u32le salt.length ++ salt
    ++ u32le 64 ++ checksumOf encrypted
    ++ u32le (16 + encrypted.length) ++ iv ++ encrypted

/-- The fields `parseVDBFile` extracts from the container before the
cryptographic stages. -/
structure ParsedRaw where
  salt : List Nat
  storedChecksum : List Nat
  iv : List Nat
  encrypted : List Nat

/-- The byte-level part of `VDBStorage.parseVDBFile`, with the source's
offset arithmetic: after the magic (4) and version (4) come the salt
block, the checksum block, the payload length, the 16-byte iv and
`payloadLength - 16` bytes of ciphertext. -/
def parseVDBRaw (buf : List Nat) : Except String ParsedRaw :=
  let magic := bufSlice buf 0 4
  if magic ≠ vdbMagic then .error "Invalid VDB file format" else
  let version := readU32LE buf 4
  if version ≠ 1 then .error "Unsupported VDB version" else
  let saltLength := readU32LE buf 8
  let salt := bufSlice buf 12 (12 + saltLength)
  let checksumLength := readU32LE buf (12 + saltLength)
  let storedChecksum :=
    bufSlice buf (16 + saltLength) (16 + saltLength + checksumLength)
  let encryptedDataLength := readU32LE buf (16 + saltLength + checksumLength)
  let ivStart := 20 + saltLength + checksumLength
  let iv := bufSlice buf ivStart (ivStart + 16)
  let encrypted :=
    bufSlice buf (ivStart + 16) (ivStart + 16 + (encryptedDataLength - 16))
  .ok { salt := salt, storedChecksum := storedChecksum, iv := iv,
        encrypted := encrypted }

/-- The `json_image` produced by `VDBStorage.serializeData`: header
timestamps, the two storage maps (values are opaque serialized JSON
here) and the operation log. -/
structure StorageImage where
  headerCreated : String
  headerModified : String
  collections : List (String × JSVal)
  indexes : List (String × JSVal)
  operationLog : List JSVal

/-- The external stages of a save/open cycle, specialised to one
database key (PBKDF2 is deterministic, so re-deriving from the same
passphrase and the salt recovered from the file yields the same key):
JSON+UTF-8, gzip, AES-256-CBC (fresh iv per save), SHA-256 hex digest
as UTF-8 bytes. -/
structure SaveCodec where
  jsonEncode : StorageImage → List Nat
  jsonDecode : List Nat → Option StorageImage
  gzipC : List Nat → List Nat
  gunzipC : List Nat → Option (List Nat)
  encryptC : List Nat → List Nat × List Nat
  decryptC : List Nat → List Nat → Option (List Nat)
  checksumC : List Nat → List Nat

/-- `VDBStorage._performSave` up to the file bytes: serialize, gzip,
encrypt, build the container. -/
def performSave (c : SaveCodec) (salt : List Nat) (img : StorageImage) :
    List Nat :=
  let compressed := c.gzipC (c.jsonEncode img)
  let encrypted := c.encryptC compressed
  buildFileBuffer c.checksumC salt encrypted.2 encrypted.1

/-- `VDBStorage.parseVDBFile` end-to-end: extract the container fields,
verify the ciphertext digest (`verifyChecksum` compares the two hex
strings; byte-list equality is the same comparison), decrypt, gunzip,
parse, repopulate. -/
def parseVDBFile (c : SaveCodec) (buf : List Nat) :
    Except String StorageImage := do
  let raw ← parseVDBRaw buf
  if c.checksumC raw.encrypted ≠ raw.storedChecksum then
    throw "VDB file integrity check failed - file may be corrupted"
  match c.decryptC raw.encrypted raw.iv with
  | none => throw "Decryption failed"
  | some decrypted =>
    match c.gunzipC decrypted with
    | none => throw "Failed to decompress data"
    | some decompressed =>
      match c.jsonDecode decompressed with
      | none => throw "Failed to parse JSON data"
      | some img => pure img

/-! ## Spec-side definitions used to state claims -/

/-- The comparator the spec prescribes for `find`'s sort (§4.4 step 4):
undefined sorts before defined, defined values compare as in the code,
ties fall to the next `(path, direction)` pair. -/
def specSortCompare (sort : List (String × Int)) (a b : JSVal) : Int :=
  match sort with
  | [] => 0
  | (field, direction) :: rest =>
    let aV := getFieldValue a field
    let bV := getFieldValue b field
    match isUndef aV, isUndef bV with
    | true, true => specSortCompare rest a b
    | true, false => -1
    | false, true => 1
    | false, false =>
      let c : Int := if jsLt aV bV then -1 else if jsGt aV bV then 1 else 0
      let c := if direction = -1 then -c else c
      if c ≠ 0 then c else specSortCompare rest a b

/-- Monotone non-decreasing under the spec comparator. -/
def specSortedChain (sort : List (String × Int)) : List JSVal → Bool
  | [] => true
  | [_] => true
  | a :: b :: rest =>
    decide (specSortCompare sort a b ≤ 0) && specSortedChain sort (b :: rest)

/-! ## Concrete instances used by the claim theorems -/

/-- A context with inert external primitives; no claim evaluated with it
reaches `regexTest`/`dateParse`, and no schema it is used with has
encrypted fields. -/
def ctxPlain : EngineCtx where
  regexTest := fun _ _ => false
  dateParse := fun _ => none
  encryptFieldF := id
  decryptFieldF := id

def exceptIsOk {ε α : Type} : Except ε α → Bool
  | .ok _ => true
  | .error _ => false

/-- `{email: {type: 'string', unique: true}}`. -/
def uniqueSchema : Schema := [("email", { type := "string", unique := true })]

def uniqueSt0 : ColState := ⟨"users", ⟨uniqueSchema, []⟩, []⟩

/-- `insert('users', {email:'a'})` on the empty collection. -/
def uniqueRun1 := insertOp ctxPlain uniqueSt0 (.obj [("email", .str "a")]) "i1" 1

/-- then `insert('users', {email:'b'})`. -/
def uniqueRun2 := insertOp ctxPlain uniqueRun1.2 (.obj [("email", .str "b")]) "i2" 2

/-- then `update('users', {email:'b'}, {$set:{email:'a'}})`. -/
def uniqueRun3 :=
  updateOp ctxPlain uniqueRun2.2 [("email", .str "b")]
    [("$set", [("email", .str "a")])] true "iX" 3

/-- A stored document `{v:'x'}` with id `i1`. -/
def c3Doc1 : JSVal :=
  .obj [("v", .str "x"), ("_id", .str "i1"), ("createdAt", .date 0),
        ("updatedAt", .date 0)]

/-- A unique index on `v` already holding `'x' ↦ {i1}`. -/
def c3Index : Index := ⟨"v", true, false, [("x", [.str "i1"])]⟩

def c3St : ColState :=
  ⟨"c", ⟨[("v", { type := "string" })], [(.str "i1", c3Doc1)]⟩,
   [("c.v", c3Index)]⟩

/-- `insert('c', {v:'x'})` against the unique index that already holds
`'x'`. -/
def c3Run := insertOp ctxPlain c3St (.obj [("v", .str "x")]) "i2" 5

def c3ReqSt : ColState :=
  ⟨"users", ⟨[("email", { type := "string", required := true })], []⟩, []⟩

def c5DocA : JSVal := .obj [("a", .num 2)]

def c5DocB : JSVal := .obj []

def c7Index : Index := ⟨"v", false, false, []⟩

/-- A database holding collection `c` with an index `c.v` present in
both the engine map and the storage map. -/
def c7Db : DbState :=
  ⟨[("c", ⟨[], []⟩)], [("c.v", c7Index)], [("c", .null)], [("c.v", .null)], []⟩

def c7Run := dropCollection c7Db "c"

/-- `regexTest` that accepts exactly when pattern and subject coincide;
`new RegExp('john').test('john')` is true, which is all the C9 input
needs. -/
def ctxRegexLit : EngineCtx where
  regexTest := fun p s => p == s
  dateParse := fun _ => none
  encryptFieldF := id
  decryptFieldF := id

/-- Field-crypto primitives satisfying the round-trip laws at the C6
witness value. -/
def c6Fc : FieldCrypto where
  jsonStringify := jsToString
  jsonParse := fun s => some (.str s)
  utf8Encode := fun _ => [7]
  utf8Decode := fun _ => some "123-45-6789"
  aesEncrypt := fun d => (d, List.replicate 16 0)
  aesDecrypt := fun e _ => some e
  b64encode := fun _ => "x"
  b64decode := fun _ => List.replicate 16 0 ++ [7]

/-- Field encryption that tags the value reversibly and never returns
`undefined`. -/
def c6Ctx : EngineCtx where
  regexTest := fun _ _ => false
  dateParse := fun _ => none
  encryptFieldF := fun w => .arr [w]
  decryptFieldF := fun w => match w with | .arr [x] => x | v => v

/-- `{ssn: {type: 'string', encrypted: true}}`. -/
def c6SsnSchema : Schema := [("ssn", { type := "string", encrypted := true })]

def c1Img : StorageImage :=
  ⟨"2024-01-01T00:00:00.000Z", "2024-01-02T00:00:00.000Z",
   [("users", .null)], [("users.email", .null)], [.null]⟩

/-- Codec primitives satisfying the round-trip laws at `c1Img`. -/
def c1Codec : SaveCodec where
  jsonEncode := fun _ => [7]
  jsonDecode := fun _ => some c1Img
  gzipC := id
  gunzipC := fun d => some d
  encryptC := fun d => (d, List.replicate 16 0)
  decryptC := fun e _ => some e
  checksumC := fun _ => List.replicate 64 48

def c1Salt : List Nat := List.replicate 32 0

/-! ## Helper lemmas -/

theorem byteAt_append (pre l : List Nat) (j : Nat) (h : pre.length ≤ j) :
    byteAt (pre ++ l) j = byteAt l (j - pre.length) :=
  List.getD_append_right pre l 0 j h

theorem readU32LE_append (pre l : List Nat) (a : Nat) (ha : a = pre.length) :
    readU32LE (pre ++ l) a = readU32LE l 0 := by
  subst ha
  unfold readU32LE
  rw [byteAt_append pre l pre.length (by omega),
      byteAt_append pre l (pre.length + 1) (by omega),
      byteAt_append pre l (pre.length + 2) (by omega),
      byteAt_append pre l (pre.length + 3) (by omega)]
  simp only [Nat.sub_self, Nat.add_sub_cancel_left, Nat.zero_add]

theorem readU32LE_u32le (n : Nat) (l : List Nat) (h : n < 4294967296) :
    readU32LE (u32le n ++ l) 0 = n := by
  have e : u32le n ++ l =
      (n % 256) :: (n / 256 % 256) :: (n / 65536 % 256)
        :: (n / 16777216 % 256) :: l := rfl
  rw [e]
  show (n % 256) + 256 * (n / 256 % 256) + 65536 * (n / 65536 % 256)
      + 16777216 * (n / 16777216 % 256) = n
  omega

theorem bufSlice_append (pre mid post : List Nat) (a b : Nat)
    (ha : a = pre.length) (hb : b = pre.length + mid.length) :
    bufSlice (pre ++ (mid ++ post)) a b = mid := by
  subst ha hb
  unfold bufSlice
  rw [← List.append_assoc]
  rw [show pre.length + mid.length = (pre ++ mid).length from
    (List.length_append _ _).symm]
  rw [List.take_left]
  exact List.drop_left pre mid

/-- The container layout is parsed back exactly: magic, version, salt,
stored digest, iv and ciphertext are recovered from the bytes
`buildFileBuffer` lays out. -/
theorem parseVDBRaw_build (checksumOf : List Nat → List Nat)
    (salt iv encrypted : List Nat)
    (hsalt : salt.length < 4294967296) (hiv : iv.length = 16)
    (hck : (checksumOf encrypted).length = 64)
    (henc : 16 + encrypted.length < 4294967296) :
    parseVDBRaw (buildFileBuffer checksumOf salt iv encrypted) =
      .ok ⟨salt, checksumOf encrypted, iv, encrypted⟩ := by
  set ck := checksumOf encrypted with hckdef
  set buf := buildFileBuffer checksumOf salt iv encrypted with hbuf
  have h1 : bufSlice buf 0 4 = vdbMagic := by
    rw [hbuf]
    have e : buildFileBuffer checksumOf salt iv encrypted =
        vdbMagic ++ (u32le 1 ++ (u32le salt.length ++ (salt ++ (u32le 64 ++
          (ck ++ (u32le (16 + encrypted.length) ++ (iv ++ encrypted))))))) := by
      simp [buildFileBuffer, List.append_assoc, hckdef]
    rw [e]
    exact bufSlice_append [] vdbMagic _ 0 4 rfl rfl
  have h2 : readU32LE buf 4 = 1 := by
    rw [hbuf]
    have e : buildFileBuffer checksumOf salt iv encrypted =
        vdbMagic ++ (u32le 1 ++ (u32le salt.length ++ (salt ++ (u32le 64 ++
          (ck ++ (u32le (16 + encrypted.length) ++ (iv ++ encrypted))))))) := by
      simp [buildFileBuffer, List.append_assoc, hckdef]
    rw [e, readU32LE_append vdbMagic _ 4 rfl]
    exact readU32LE_u32le 1 _ (by omega)
  have h3 : readU32LE buf 8 = salt.length := by
    rw [hbuf]
    have e : buildFileBuffer checksumOf salt iv encrypted =
        (vdbMagic ++ u32le 1) ++ (u32le salt.length ++ (salt ++ (u32le 64 ++
          (ck ++ (u32le (16 + encrypted.length) ++ (iv ++ encrypted)))))) := by
      simp [buildFileBuffer, List.append_assoc, hckdef]
    rw [e, readU32LE_append (vdbMagic ++ u32le 1) _ 8 (by simp [vdbMagic, u32le])]
    exact readU32LE_u32le _ _ hsalt
  have h4 : bufSlice buf 12 (12 + salt.length) = salt := by
    rw [hbuf]
    have e : buildFileBuffer checksumOf salt iv encrypted =
        (vdbMagic ++ u32le 1 ++ u32le salt.length) ++ (salt ++ (u32le 64 ++
          (ck ++ (u32le (16 + encrypted.length) ++ (iv ++ encrypted))))) := by
      simp [buildFileBuffer, List.append_assoc, hckdef]
    rw [e]
    exact bufSlice_append _ salt _ 12 (12 + salt.length)
      (by simp [vdbMagic, u32le]) (by simp [vdbMagic, u32le])
  have h5 : readU32LE buf (12 + salt.length) = 64 := by
    rw [hbuf]
    have e : buildFileBuffer checksumOf salt iv encrypted =
        (vdbMagic ++ u32le 1 ++ u32le salt.length ++ salt) ++ (u32le 64 ++
          (ck ++ (u32le (16 + encrypted.length) ++ (iv ++ encrypted)))) := by
      simp [buildFileBuffer, List.append_assoc, hckdef]
    rw [e, readU32LE_append _ _ (12 + salt.length) (by simp [vdbMagic, u32le]; omega)]
    exact readU32LE_u32le 64 _ (by omega)
  have h6 : bufSlice buf (16 + salt.length) (16 + salt.length + 64) = ck := by
    rw [hbuf]
    have e : buildFileBuffer checksumOf salt iv encrypted =
        (vdbMagic ++ u32le 1 ++ u32le salt.length ++ salt ++ u32le 64) ++ (ck ++
          (u32le (16 + encrypted.length) ++ (iv ++ encrypted))) := by
      simp [buildFileBuffer, List.append_assoc, hckdef]
    rw [e]
    exact bufSlice_append _ ck _ (16 + salt.length) (16 + salt.length + 64)
      (by simp [vdbMagic, u32le]; omega) (by simp [vdbMagic, u32le]; omega)
  have h7 : readU32LE buf (16 + salt.length + 64) = 16 + encrypted.length := by
    rw [hbuf]
    have e : buildFileBuffer checksumOf salt iv encrypted =
        (vdbMagic ++ u32le 1 ++ u32le salt.length ++ salt ++ u32le 64 ++ ck) ++
          (u32le (16 + encrypted.length) ++ (iv ++ encrypted)) := by
      simp [buildFileBuffer, List.append_assoc, hckdef]
    rw [e, readU32LE_append _ _ (16 + salt.length + 64)
      (by simp [vdbMagic, u32le, hck]; omega)]
    exact readU32LE_u32le _ _ henc
  have h8 : bufSlice buf (20 + salt.length + 64) (20 + salt.length + 64 + 16) = iv := by
    rw [hbuf]
    have e : buildFileBuffer checksumOf salt iv encrypted =
        (vdbMagic ++ u32le 1 ++ u32le salt.length ++ salt ++ u32le 64 ++ ck ++
          u32le (16 + encrypted.length)) ++ (iv ++ encrypted) := by
      simp [buildFileBuffer, List.append_assoc, hckdef]
    rw [e]
    exact bufSlice_append _ iv _ _ _
      (by simp [vdbMagic, u32le, hck]; omega)
      (by simp [vdbMagic, u32le, hck, hiv]; omega)
  have h9 : bufSlice buf (20 + salt.length + 64 + 16)
      (20 + salt.length + 64 + 16 + encrypted.length) = encrypted := by
    rw [hbuf]
    have e : buildFileBuffer checksumOf salt iv encrypted =
        (vdbMagic ++ u32le 1 ++ u32le salt.length ++ salt ++ u32le 64 ++ ck ++
          u32le (16 + encrypted.length) ++ iv) ++ (encrypted ++ []) := by
      simp [buildFileBuffer, List.append_assoc, hckdef]
    rw [e]
    exact bufSlice_append _ encrypted [] _ _
      (by simp [vdbMagic, u32le, hck, hiv]; omega)
      (by simp [vdbMagic, u32le, hck, hiv]; omega)
  unfold parseVDBRaw
  rw [h1, h2, h3]
  simp [h4, h5, h6, h7, h8, h9]

theorem objGet_objSet_same (fs : List (String × JSVal)) (k : String) (v : JSVal) :
    objGet (objSet fs k v) k = v := by
  induction fs with
  | nil => simp [objSet, objGet]
  | cons e rest ih =>
    by_cases h : e.1 = k
    · simp [objSet, objGet, h]
    · simp [objSet, objGet, h, ih]

theorem objGet_objSet_diff (fs : List (String × JSVal)) (k k' : String) (v : JSVal)
    (h : k ≠ k') : objGet (objSet fs k v) k' = objGet fs k' := by
  induction fs with
  | nil => simp [objSet, objGet, h]
  | cons e rest ih =>
    by_cases he : e.1 = k
    · simp [objSet, objGet, he, h]
    · by_cases he' : e.1 = k'
      · simp [objSet, objGet, he, he', Ne.symm h]
      · simp [objSet, objGet, he, he', ih]

theorem objSet_objSet_same (fs : List (String × JSVal)) (k : String) (v w : JSVal) :
    objSet (objSet fs k v) k w = objSet fs k w := by
  induction fs with
  | nil => simp [objSet]
  | cons e rest ih =>
    by_cases h : e.1 = k
    · simp [objSet, h]
    · simp [objSet, h, ih]

/-- Writes to two distinct keys commute provided the first key is
already present (which holds whenever the engine's encrypt/decrypt
steps fire). -/
theorem objSet_objSet_comm_present (fs : List (String × JSVal)) (k k' : String)
    (v w : JSVal) (h : k ≠ k') (hk : isUndef (objGet fs k) = false) :
    objSet (objSet fs k v) k' w = objSet (objSet fs k' w) k v := by
  induction fs with
  | nil => simp [objGet, isUndef] at hk
  | cons e rest ih =>
    by_cases he : e.1 = k
    · simp [objSet, he, h, Ne.symm h]
    · by_cases he' : e.1 = k'
      · simp [objSet, he, he', Ne.symm h]
      · simp [objGet, he] at hk
        simp [objSet, he, he', ih hk]

theorem objSet_objGet_eq (fs : List (String × JSVal)) (k : String)
    (h : isUndef (objGet fs k) = false) : objSet fs k (objGet fs k) = fs := by
  induction fs with
  | nil => simp [objGet, isUndef] at h
  | cons e rest ih =>
    obtain ⟨k1, v1⟩ := e
    by_cases he : k1 = k
    · simp [objSet, objGet, he]
    · simp [objGet, he] at h
      simp [objSet, objGet, he, ih h]

theorem decryptStep_encryptStep_comm (ctx : EngineCtx)
    (acc : List (String × JSVal)) (e1 e2 : String × FieldDef)
    (h : e1.1 ≠ e2.1) :
    decryptStep ctx (encryptStep ctx acc e2) e1 =
      encryptStep ctx (decryptStep ctx acc e1) e2 := by
  unfold encryptStep decryptStep
  have g12 : ∀ x, objGet (objSet acc e2.1 x) e1.1 = objGet acc e1.1 :=
    fun x => objGet_objSet_diff _ _ _ _ (Ne.symm h)
  have g21 : ∀ x, objGet (objSet acc e1.1 x) e2.1 = objGet acc e2.1 :=
    fun x => objGet_objSet_diff _ _ _ _ h
  by_cases c2 : e2.2.encrypted = true ∧ isUndef (objGet acc e2.1) = false <;>
    by_cases c1 : e1.2.encrypted = true ∧ isUndef (objGet acc e1.1) = false <;>
    simp [g12, g21, c1, c2]
  exact objSet_objSet_comm_present acc e2.1 e1.1 _ _ (Ne.symm h) c2.2

theorem decryptStep_encryptStep_cancel (ctx : EngineCtx)
    (hrt : ∀ w, ctx.decryptFieldF (ctx.encryptFieldF w) = w)
    (hne : ∀ w, isUndef (ctx.encryptFieldF w) = false)
    (acc : List (String × JSVal)) (e : String × FieldDef) :
    decryptStep ctx (encryptStep ctx acc e) e = acc := by
  unfold encryptStep decryptStep
  by_cases c : e.2.encrypted = true ∧ isUndef (objGet acc e.1) = false
  · simp only [Bool.not_eq_true', if_pos c]
    rw [if_pos (by rw [objGet_objSet_same]; exact ⟨c.1, hne _⟩)]
    rw [objGet_objSet_same, hrt, objSet_objSet_same]
    exact objSet_objGet_eq acc e.1 c.2
  · simp only [Bool.not_eq_true', if_neg c]

theorem decryptStep_foldl_comm (ctx : EngineCtx) (e1 : String × FieldDef) :
    ∀ (rest : Schema), e1.1 ∉ rest.map Prod.fst →
    ∀ acc, decryptStep ctx (rest.foldl (encryptStep ctx) acc) e1 =
      rest.foldl (encryptStep ctx) (decryptStep ctx acc e1) := by
  intro rest
  induction rest with
  | nil => intro _ acc; rfl
  | cons e2 rest ih =>
    intro hmem acc
    simp only [List.map_cons, List.mem_cons] at hmem
    push_neg at hmem
    simp only [List.foldl_cons]
    rw [ih hmem.2 (encryptStep ctx acc e2),
        decryptStep_encryptStep_comm ctx acc e1 e2 hmem.1]

theorem foldl_decrypt_encrypt (ctx : EngineCtx)
    (hrt : ∀ w, ctx.decryptFieldF (ctx.encryptFieldF w) = w)
    (hne : ∀ w, isUndef (ctx.encryptFieldF w) = false) :
    ∀ (schema : Schema), (schema.map Prod.fst).Nodup →
    ∀ fields, schema.foldl (decryptStep ctx)
      (schema.foldl (encryptStep ctx) fields) = fields := by
  intro schema
  induction schema with
  | nil => intro _ fields; rfl
  | cons e rest ih =>
    intro hnd fields
    simp only [List.map_cons, List.nodup_cons] at hnd
    simp only [List.foldl_cons]
    rw [decryptStep_foldl_comm ctx e rest hnd.1 (encryptStep ctx fields e),
        decryptStep_encryptStep_cancel ctx hrt hne fields e]
    exact ih hnd.2 fields

/-- Decrypt-after-encrypt restores a document: the whole point of the
storage processing pair. -/
theorem processFrom_processFor (ctx : EngineCtx)
    (hrt : ∀ w, ctx.decryptFieldF (ctx.encryptFieldF w) = w)
    (hne : ∀ w, isUndef (ctx.encryptFieldF w) = false)
    (schema : Schema) (hnd : (schema.map Prod.fst).Nodup)
    (fields : List (String × JSVal)) :
    processDocumentFromStorage ctx
      (processDocumentForStorage ctx (.obj fields) schema) schema = .obj fields := by
  unfold processDocumentForStorage processDocumentFromStorage
  simp only []
  rw [foldl_decrypt_encrypt ctx hrt hne schema hnd fields]

theorem arc_undef_left (y : JSVal) : arc .undef y = none := by
  cases y <;> simp [arc, toNumber]

theorem arc_undef_right (x : JSVal) : arc x .undef = none := by
  cases x <;> simp [arc, toNumber]

theorem splitDotAux_ne_nil (cs : List Char) : ∀ acc, splitDotAux cs acc ≠ [] := by
  induction cs with
  | nil => intro acc; simp [splitDotAux]
  | cons c cs ih =>
    intro acc
    by_cases h : c = '.' <;> simp [splitDotAux, h, ih]

theorem getFieldValuePath_of_undef (parts : List String) :
    getFieldValuePath .undef parts = .undef := by
  cases parts <;> rfl

/-- Every dotted path reads `undefined` off the empty object. -/
theorem getFieldValue_emptyObj (field : String) :
    getFieldValue (.obj []) field = .undef := by
  unfold getFieldValue
  cases hsp : splitOnDot field with
  | nil =>
    exfalso
    have hne := splitDotAux_ne_nil field.data []
    simp [splitOnDot, List.map_eq_nil_iff] at hsp
    exact hne hsp
  | cons p rest =>
    show getFieldValuePath (.obj []) (p :: rest) = .undef
    have e : getFieldValuePath (.obj []) (p :: rest) =
        getFieldValuePath (objGet [] p) rest := rfl
    rw [e]
    exact getFieldValuePath_of_undef rest

/-! ## Claim theorems -/

/-- C1: parse after build is the identity on the persisted state.  For
every database image, salt and codec stages (JSON+UTF-8, gzip,
AES-256-CBC under the key derived from the passphrase used to save,
SHA-256), if each external stage inverts its counterpart at the saved
value (and the container's 32-bit length fields are in range, the iv is
16 bytes, the digest 64 bytes), then `parseVDBFile` applied to the
bytes `_performSave`/`buildFileBuffer` produce returns exactly the
saved collections map, indexes map and operation log. -/
theorem C1_parse_after_build_roundtrip (c : SaveCodec) (salt : List Nat)
    (img : StorageImage)
    (hsalt : salt.length < 4294967296)
    (hiv : (c.encryptC (c.gzipC (c.jsonEncode img))).2.length = 16)
    (hck : (c.checksumC (c.encryptC (c.gzipC (c.jsonEncode img))).1).length = 64)
    (henc : 16 + (c.encryptC (c.gzipC (c.jsonEncode img))).1.length < 4294967296)
    (hdec : c.decryptC (c.encryptC (c.gzipC (c.jsonEncode img))).1
        (c.encryptC (c.gzipC (c.jsonEncode img))).2 = some (c.gzipC (c.jsonEncode img)))
    (hgz : c.gunzipC (c.gzipC (c.jsonEncode img)) = some (c.jsonEncode img))
    (hjson : c.jsonDecode (c.jsonEncode img) = some img) :
    parseVDBFile c (performSave c salt img) = .ok img := by
  unfold parseVDBFile performSave
  rw [parseVDBRaw_build c.checksumC salt _ _ hsalt hiv hck henc]
  simp [bind, Except.bind, hdec, hgz, hjson, pure, Except.pure]

/-- Witness for C1 at a concrete image, salt and codec. -/
theorem C1_witness :
    parseVDBFile c1Codec (performSave c1Codec c1Salt c1Img) = .ok c1Img :=
  C1_parse_after_build_roundtrip c1Codec c1Salt c1Img (by decide) rfl rfl
    (by decide) rfl rfl rfl

/-- C2 (the code violates the claim): after `insert {email:'a'}`,
`insert {email:'b'}` and a successful
`update({email:'b'}, {$set:{email:'a'}})` on a schema whose `email` is
`unique`, the collection holds two documents with ids `i1 ≠ i2` whose
`email` both equal `"a"` — `VerusDB.update` never re-checks unique
constraints (the last conjunct shows the same duplicate is rejected on
the `insert` path). -/
theorem C2_update_bypasses_unique_check :
    exceptIsOk uniqueRun1.1 = true ∧
    exceptIsOk uniqueRun2.1 = true ∧
    uniqueRun3.1 = .ok ⟨1, 1⟩ ∧
    (uniqueRun3.2.collection.documents.map fun e =>
        (e.1, getFieldValue e.2 "email")) =
      [(.str "i1", .str "a"), (.str "i2", .str "a")] ∧
    (insertOp ctxPlain uniqueRun1.2 (.obj [("email", .str "a")]) "i9" 9).1 =
      .error "Duplicate value for unique field email" :=
  ⟨rfl, rfl, rfl, rfl, rfl⟩

/-- C3 counterexample: `insert` is *not* all-or-nothing.  Inserting
`{v:'x'}` against a unique index already mapping `'x' ↦ {i1}` throws
`Duplicate value for unique index: x`, yet the document map has grown
from `[i1]` to `[i1, i2]` — the unique-index throw happens after
`documents.set`. -/
theorem C3_unique_index_throw_keeps_document :
    c3Run.1 = .error "Duplicate value for unique index: x" ∧
    c3St.collection.documents.map Prod.fst = [.str "i1"] ∧
    c3Run.2.collection.documents.map Prod.fst = [.str "i1", .str "i2"] :=
  ⟨rfl, rfl, rfl⟩

/-- C3 (amended): `insert` leaves the collection's document map and all
indexes exactly as they were whenever it throws during schema
validation or during the schema-level unique-constraint check — the
failures that occur before any mutation.  (A duplicate value in a
unique *index* throws only after the document has been stored, as the
counterexample shows.) -/
theorem C3_insert_atomic_before_first_mutation (ctx : EngineCtx)
    (st : ColState) (document : JSVal) (newId : String) (now : Int)
    (h : (∃ e, validateDocumentE ctx document st.collection.schema newId now =
            .error e) ∨
         (∃ v e, validateDocumentE ctx document st.collection.schema newId now =
            .ok v ∧
          checkUniqueConstraints ctx st.collection
            (processDocumentForStorage ctx v st.collection.schema) = .error e)) :
    (insertOp ctx st document newId now).2 = st := by
  unfold insertOp
  rcases h with ⟨e, he⟩ | ⟨v, e, hv, hu⟩
  · rw [he]
  · rw [hv]
    simp [hu]

/-- Witness for C3 at a required-field violation. -/
theorem C3_witness : (insertOp ctxPlain c3ReqSt (.obj []) "i" 0).2 = c3ReqSt :=
  C3_insert_atomic_before_first_mutation ctxPlain c3ReqSt (.obj []) "i" 0
    (Or.inl ⟨"Required field email is missing", rfl⟩)

/-- C4 counterexample: `{a: {$gt: 0}}` *matches* a document without an
`a` field, and matches `{a: "abc"}` under both `$gt` and `$lt` — the
claim says these must not match. -/
theorem C4_ordered_ops_match_missing_and_mixed :
    matchesQuery ctxPlain (.obj [("b", .num 1)])
      [("a", .obj [("$gt", .num 0)])] = .ok true ∧
    matchesQuery ctxPlain (.obj [("a", .str "abc")])
      [("a", .obj [("$gt", .num 0)])] = .ok true ∧
    matchesQuery ctxPlain (.obj [("a", .str "abc")])
      [("a", .obj [("$lt", .num 0)])] = .ok true :=
  ⟨rfl, rfl, rfl⟩

/-- C4 (amended): each of `$gt`, `$gte`, `$lt`, `$lte` is implemented
as a negated JS comparison, and a comparison involving `undefined` or a
string that does not coerce to a number is `false`; so a missing field
*matches* all four operators (for any operand), and so does a
non-numeric string compared against a number. -/
theorem C4_missing_and_mixed_match_ordered_ops (ctx : EngineCtx) (v : JSVal)
    (s : String) (n : Int) (hs : strToNumber s = none) :
    matchesOperatorList ctx .undef [("$gt", v)] = .ok true ∧
    matchesOperatorList ctx .undef [("$gte", v)] = .ok true ∧
    matchesOperatorList ctx .undef [("$lt", v)] = .ok true ∧
    matchesOperatorList ctx .undef [("$lte", v)] = .ok true ∧
    matchesOperatorList ctx (.str s) [("$gt", .num n)] = .ok true ∧
    matchesOperatorList ctx (.str s) [("$gte", .num n)] = .ok true ∧
    matchesOperatorList ctx (.str s) [("$lt", .num n)] = .ok true ∧
    matchesOperatorList ctx (.str s) [("$lte", .num n)] = .ok true := by
  have h3 : arc (.str s) (.num n) = none := by simp [arc, toNumber, hs]
  have h4 : arc (.num n) (.str s) = none := by simp [arc, toNumber, hs]
  refine ⟨?_, ?_, ?_, ?_, ?_, ?_, ?_, ?_⟩ <;>
    simp [matchesOperatorList, jsLe, jsLt, jsGe, jsGt,
      arc_undef_left, arc_undef_right, h3, h4]

/-- Witness for C4 at `$op` against `5` on a missing field and against
`0` on the string `"abc"`. -/
theorem C4_witness :
    matchesOperatorList ctxPlain .undef [("$gt", .num 5)] = .ok true ∧
    matchesOperatorList ctxPlain .undef [("$gte", .num 5)] = .ok true ∧
    matchesOperatorList ctxPlain .undef [("$lt", .num 5)] = .ok true ∧
    matchesOperatorList ctxPlain .undef [("$lte", .num 5)] = .ok true ∧
    matchesOperatorList ctxPlain (.str "abc") [("$gt", .num 0)] = .ok true ∧
    matchesOperatorList ctxPlain (.str "abc") [("$gte", .num 0)] = .ok true ∧
    matchesOperatorList ctxPlain (.str "abc") [("$lt", .num 0)] = .ok true ∧
    matchesOperatorList ctxPlain (.str "abc") [("$lte", .num 0)] = .ok true :=
  C4_missing_and_mixed_match_ordered_ops ctxPlain (.num 5) "abc" 0 rfl

/-- C5 counterexample: sorting `[{a:2}, {}]` by `{a: 1}` returns the
list unchanged, leaving the document whose sort field is undefined
*after* the defined one; under the spec's comparator (undefined first)
that pair is out of order, so the output is not monotone
non-decreasing. -/
theorem C5_undefined_not_sorted_first :
    sortDocuments [("a", 1)] [c5DocA, c5DocB] = [c5DocA, c5DocB] ∧
    specSortCompare [("a", 1)] c5DocA c5DocB = 1 ∧
    specSortedChain [("a", 1)]
      (sortDocuments [("a", 1)] [c5DocA, c5DocB]) = false :=
  ⟨rfl, rfl, rfl⟩

/-- C5 (amended): the code's comparator returns `0` between any
document and one whose sort field is undefined (both JS comparisons
against `undefined` are false), so such a document keeps its original
position under the stable sort instead of sorting before defined
values; `find`'s order is monotone only under the code comparator that
treats undefined as tied with everything. -/
theorem C5_undefined_compares_equal_and_stays (field : String)
    (direction : Int) (doc : JSVal) :
    compareBySort [(field, direction)] doc (.obj []) = 0 ∧
    compareBySort [(field, direction)] (.obj []) doc = 0 ∧
    sortDocuments [(field, direction)] [doc, .obj []] = [doc, .obj []] := by
  have hb : getFieldValue (.obj []) field = .undef := getFieldValue_emptyObj field
  have h1 : compareBySort [(field, direction)] doc (.obj []) = 0 := by
    simp [compareBySort, hb, jsLt, jsGt, arc_undef_left, arc_undef_right]
  have h2 : compareBySort [(field, direction)] (.obj []) doc = 0 := by
    simp [compareBySort, hb, jsLt, jsGt, arc_undef_left, arc_undef_right]
  refine ⟨h1, h2, ?_⟩
  simp [sortDocuments, insertSorted, h2]

/-- C6: field-level encryption round-trips.  (1) `decryptField` of
`encryptField v` recovers `v` whenever the external primitives invert
each other at the encrypted value (the iv is 16 bytes, base64, AES,
UTF-8 and JSON round-trip); (2) consequently decrypt-after-encrypt is
the identity on whole documents for any schema without duplicate field
names; and (3) the document `insert` returns is exactly the validated
plaintext document, never the stored ciphertext form. -/
theorem C6_field_encryption_roundtrip :
    (∀ (fc : FieldCrypto) (v : JSVal),
      (fc.aesEncrypt (fc.utf8Encode (fc.jsonStringify v))).2.length = 16 →
      fc.b64decode (fc.b64encode
          ((fc.aesEncrypt (fc.utf8Encode (fc.jsonStringify v))).2 ++
           (fc.aesEncrypt (fc.utf8Encode (fc.jsonStringify v))).1)) =
        (fc.aesEncrypt (fc.utf8Encode (fc.jsonStringify v))).2 ++
        (fc.aesEncrypt (fc.utf8Encode (fc.jsonStringify v))).1 →
      fc.aesDecrypt (fc.aesEncrypt (fc.utf8Encode (fc.jsonStringify v))).1
          (fc.aesEncrypt (fc.utf8Encode (fc.jsonStringify v))).2 =
        some (fc.utf8Encode (fc.jsonStringify v)) →
      fc.utf8Decode (fc.utf8Encode (fc.jsonStringify v)) =
        some (fc.jsonStringify v) →
      fc.jsonParse (fc.jsonStringify v) = some v →
      decryptField fc (encryptField fc v) = some v)
    ∧ (∀ (ctx : EngineCtx),
        (∀ w, ctx.decryptFieldF (ctx.encryptFieldF w) = w) →
        (∀ w, isUndef (ctx.encryptFieldF w) = false) →
        ∀ (schema : Schema), (schema.map Prod.fst).Nodup →
        ∀ (fields : List (String × JSVal)),
          processDocumentFromStorage ctx
            (processDocumentForStorage ctx (.obj fields) schema) schema =
            .obj fields)
    ∧ (∀ (ctx : EngineCtx),
        (∀ w, ctx.decryptFieldF (ctx.encryptFieldF w) = w) →
        (∀ w, isUndef (ctx.encryptFieldF w) = false) →
        ∀ (st : ColState), (st.collection.schema.map Prod.fst).Nodup →
        ∀ (document : JSVal) (newId : String) (now : Int)
          (vfields : List (String × JSVal)) (r : JSVal),
          validateDocumentE ctx document st.collection.schema newId now =
            .ok (.obj vfields) →
          (insertOp ctx st document newId now).1 = .ok r →
          r = .obj vfields) := by
  refine ⟨?_, ?_, ?_⟩
  · intro fc v h1 h2 h3 h4 h5
    unfold encryptField decryptField
    simp only []
    rw [h2]
    rw [show (16 : Nat) =
      (fc.aesEncrypt (fc.utf8Encode (fc.jsonStringify v))).2.length from h1.symm]
    rw [List.take_left, List.drop_left, h3]
    simp [h4, h5, bind, Option.bind]
  · intro ctx hrt hne schema hnd fields
    exact processFrom_processFor ctx hrt hne schema hnd fields
  · intro ctx hrt hne st hnd document newId now vfields r hv hins
    unfold insertOp at hins
    rw [hv] at hins
    cases hu : checkUniqueConstraints ctx st.collection
        (processDocumentForStorage ctx (.obj vfields) st.collection.schema) with
    | error e => simp [hu] at hins
    | ok u =>
      cases hui : updateIndexesOnInsert st.name
          (processDocumentForStorage ctx (.obj vfields) st.collection.schema)
          st.indexes with
      | mk r1 idx1 =>
        cases r1 with
        | error e => simp [hu, hui] at hins
        | ok u2 =>
          simp only [hu, hui] at hins
          rw [processFrom_processFor ctx hrt hne st.collection.schema hnd vfields]
            at hins
          simp at hins
          exact hins.symm

/-- Witness for C6: the spec's §8 scenario value `"123-45-6789"`. -/
theorem C6_witness :
    decryptField c6Fc (encryptField c6Fc (.str "123-45-6789")) =
      some (.str "123-45-6789") ∧
    processDocumentFromStorage c6Ctx
      (processDocumentForStorage c6Ctx (.obj [("ssn", .str "123-45-6789")])
        c6SsnSchema) c6SsnSchema = .obj [("ssn", .str "123-45-6789")] :=
  ⟨C6_field_encryption_roundtrip.1 c6Fc (.str "123-45-6789") rfl rfl rfl rfl rfl,
   C6_field_encryption_roundtrip.2.1 c6Ctx (fun _ => rfl) (fun _ => rfl)
     c6SsnSchema (by decide) [("ssn", .str "123-45-6789")]⟩

/-- C7 (the code violates the claim): dropping collection `c` succeeds
and removes its documents and the storage-side index `c.v`, but the
engine's in-memory index map — the one consulted by every subsequent
index operation — still contains `c.v`, whose key begins with the
dropped collection's name. -/
theorem C7_drop_keeps_engine_index :
    c7Run.1 = .ok () ∧
    c7Run.2.collections = [] ∧
    c7Run.2.storageCollections = [] ∧
    c7Run.2.storageIndexes = [] ∧
    c7Run.2.engineIndexes = [("c.v", c7Index)] ∧
    strLeads "c." "c.v" = true :=
  ⟨rfl, rfl, rfl, rfl, rfl, rfl⟩

/-- C8: `findOne(collection, q)` is exactly the first element of
`find(collection, q, {limit: 1})` when that list is non-empty, and
`null` when it is empty (errors propagate unchanged). -/
theorem C8_findOne_refines_find_limit_one (ctx : EngineCtx)
    (col : Collection) (query : List (String × JSVal)) :
    findOne ctx col query =
      Except.map (fun results => results.headD JSVal.null)
        (findDocs ctx col query { limit := 1 }) := by
  unfold findOne
  cases h : findDocs ctx col query { limit := 1 } with
  | error e => simp [h, Except.map, bind, Except.bind]
  | ok results =>
    cases results <;>
      simp [h, Except.map, bind, Except.bind, pure, Except.pure, List.headD]

/-- C9 (the code violates the claim): the README's documented query
`{name: {$regex: 'john', $options: 'i'}}` does not succeed — after the
`$regex` entry matches, the `$options` entry falls into the matcher's
default branch and throws `Unsupported operator: $options`; only the
form without `$options` matches (case-sensitively). -/
theorem C9_regex_options_throws :
    matchesQuery ctxRegexLit (.obj [("name", .str "john")])
      [("name", .obj [("$regex", .str "john"), ("$options", .str "i")])] =
      .error "Unsupported operator: $options" ∧
    matchesQuery ctxRegexLit (.obj [("name", .str "john")])
      [("name", .obj [("$regex", .str "john")])] = .ok true :=
  ⟨rfl, rfl⟩

/-- C10: a query `{f: X}` whose value `X` is an object with no own
enumerable properties — the empty object literal, or a `Date` instance
— matches every document, whatever the field holds, because the
operator loop over zero entries returns `true` vacuously. -/
theorem C10_empty_operator_object_matches_all (ctx : EngineCtx)
    (document : JSVal) (field : String) (ms : Int) :
    matchesQuery ctx document [(field, .obj [])] = .ok true ∧
    matchesQuery ctx document [(field, .date ms)] = .ok true := by
  constructor <;> simp [matchesQuery, matchesOperatorList, jsObjectEntries]
